import Mathlib

/-!
Verification development for the preview-cache core of the `datapeer`
repository, embedded from `src/client/src/components/CsvPreviewPanel.jsx`.

The component keeps four pieces of per-key state (keys are file ids,
modelled as `Nat`):

* `previews`  : JS object mapping file id to fetched preview data
                (`setPreviews`, line 6);
* `loading`   : JS object mapping file id to a truthy flag (line 7);
* `errors`    : JS object mapping file id to an error message (line 8);
* `fetchingRef` : a mutable `Set` of ids with an in-flight request (line 9).

A `useEffect` (lines 11-72) reconciles this state against `selectedFiles`:

1. for every selected file, if the guard
   `!previews[id] && !loading[id] && !errors[id] && !fetchingRef.has(id)`
   passes, the id is added to `fetchingRef`, `loading[id]` is set, and a
   request is issued (lines 13-46);
2. `previews` entries whose id is no longer selected are removed
   (lines 48-64) — `loading` and `errors` entries are NOT removed here;
3. `fetchingRef` entries whose id is no longer selected are removed
   (lines 66-71).

When a request settles, its handlers run unconditionally (there is no
check of `fetchingRef` at completion time): success writes
`previews[id] = data` and deletes `errors[id]` (lines 26-33), failure
writes `errors[id] = message` (lines 34-36), and `finally` deletes the id
from `fetchingRef` and from `loading` (lines 37-44).

The model below adds two ghost fields that record observable interaction
with the network: `pending` (the ids of requests issued and not yet
settled, in issuance order) and `requestLog` (every request ever issued).
-/

/-- The JSON body of a successful preview response, as the component
consumes it: `headers`, `rows` (records modelled as key/value pairs),
`total_rows`, `previewed_rows`. -/
structure PreviewData where
  headers : List String
  rows : List (List (String × String))
  total_rows : Nat
  previewed_rows : Nat
deriving DecidableEq

/-- The whole client-side state of `CsvPreviewPanel`, plus the ghost
fields `pending` and `requestLog` that record network interaction. -/
structure PanelState where
  /-- ids of the currently selected files (the active set), in list order
  as the component iterates them. -/
  selectedFiles : List Nat
  /-- the `previews` state object: id ↦ fetched data. -/
  previews : Nat → Option PreviewData
  /-- the `loading` state object: id present and truthy ↦ `true`. -/
  loading : Nat → Bool
  /-- the `errors` state object: id ↦ error message. -/
  errors : Nat → Option String
  /-- `fetchingRef.current`, a `Set` of ids with an in-flight request. -/
  fetchingRef : Finset Nat
  /-- ghost: ids of requests issued and not yet settled. -/
  pending : List Nat
  /-- ghost: every request ever issued, in order of issuance. -/
  requestLog : List Nat

/-- The state before anything has happened: `useState({})` thrice, an
empty `Set`, no files selected. -/
def initState : PanelState where
  selectedFiles := []
  previews := fun _ => none
  loading := fun _ => false
  errors := fun _ => none
  fetchingRef := ∅
  pending := []
  requestLog := []

/-- Point update of a map, as `{...prev, [k]: v}` / `delete obj[k]`
act on the JS objects. -/
def setKey {α : Type} (f : Nat → α) (k : Nat) (v : α) : Nat → α :=
  fun j => if j = k then v else f j

/-- The fetch guard of line 15:
`!previews[file.id] && !loading[file.id] && !errors[file.id] &&
!fetchingRef.current.has(file.id)`. -/
def canFetch (st : PanelState) (k : Nat) : Bool :=
  (st.previews k).isNone && !st.loading k && (st.errors k).isNone
    && !(decide (k ∈ st.fetchingRef))

/-- The body of the `selectedFiles.forEach` loop (lines 13-45) for one
file id: when the guard passes, register the id in `fetchingRef`, set
its `loading` flag, and issue the request (recorded in the ghost fields);
otherwise do nothing. -/
def ensure (st : PanelState) (k : Nat) : PanelState :=
  if canFetch st k then
    { st with
        fetchingRef := insert k st.fetchingRef
        loading := setKey st.loading k true
        pending := st.pending ++ [k]
        requestLog := st.requestLog ++ [k] }
  else st

/-- `forEach` over a list of ids, threading the state. -/
def issueList (l : List Nat) (st : PanelState) : PanelState :=
  l.foldl ensure st

/-- Pass ① of the effect: `selectedFiles.forEach(...)` (lines 13-46). -/
def issuePass (st : PanelState) : PanelState :=
  issueList st.selectedFiles st

/-- Pass ② of the effect (lines 48-64): drop every `previews` entry whose
id is not selected. The `changed` flag in the source only avoids an
identical-object state update; the resulting content is this. -/
def prunePreviews (st : PanelState) : PanelState :=
  { st with
      previews := fun k => if k ∈ st.selectedFiles then st.previews k else none }

/-- Pass ③ of the effect (lines 66-71): drop every `fetchingRef` member
whose id is not selected. -/
def cleanupFetchingRef (st : PanelState) : PanelState :=
  { st with
      fetchingRef := st.fetchingRef.filter (fun k => k ∈ st.selectedFiles) }

/-- One run of the `useEffect` body (lines 11-72). -/
def runEffect (st : PanelState) : PanelState :=
  cleanupFetchingRef (prunePreviews (issuePass st))

/-- A selection change: the parent passes a new `selectedFiles` prop and
the effect runs. -/
def setSelectedFiles (a : List Nat) (st : PanelState) : PanelState :=
  runEffect { st with selectedFiles := a }

/-- Success settlement of the request for `k` (lines 26-33 then 37-44):
`setPreviews` writes the data, the success handler deletes `errors[k]`,
and `finally` removes `k` from `fetchingRef` and `loading`. No check of
`fetchingRef` is made before applying the result. -/
def applyOk (k : Nat) (d : PreviewData) (st : PanelState) : PanelState :=
  { st with
      previews := setKey st.previews k (some d)
      errors := setKey st.errors k none
      loading := setKey st.loading k false
      fetchingRef := st.fetchingRef.erase k
      pending := st.pending.erase k }

/-- Failure settlement of the request for `k` (lines 34-36 then 37-44):
the catch handler writes `errors[k] = message`, and `finally` removes `k`
from `fetchingRef` and `loading`. `previews` is not touched. -/
def applyErr (k : Nat) (m : String) (st : PanelState) : PanelState :=
  { st with
      errors := setKey st.errors k (some m)
      loading := setKey st.loading k false
      fetchingRef := st.fetchingRef.erase k
      pending := st.pending.erase k }

/-- How a request for a key can settle: `response.ok` with a parsed body,
a non-success HTTP status (the `then` handler throws
`Error('Failed to load preview')`, lines 20-23), or a transport error
carrying its own message. -/
inductive FetchOutcome where
  | ok (d : PreviewData)
  | httpError
  | transportError (m : String)

/-- The message the catch handler records for a failing outcome, `none`
for success. A non-success HTTP status yields the thrown message
`"Failed to load preview"`; a transport error keeps its own message. -/
def failureMessage : FetchOutcome → Option String
  | .ok _ => none
  | .httpError => some "Failed to load preview"
  | .transportError m => some m

/-- Settlement of the request for `k` with outcome `o`: the promise
handlers of lines 20-44. -/
def settle (k : Nat) (o : FetchOutcome) (st : PanelState) : PanelState :=
  match o with
  | .ok d => applyOk k d st
  | .httpError => applyErr k "Failed to load preview" st
  | .transportError m => applyErr k m st

/-- Settlement followed by the re-run of the effect that the `setState`
calls trigger (the effect lists `previews`, `loading` and `errors` among
its dependencies, line 72). -/
def completeFetch (k : Nat) (o : FetchOutcome) (st : PanelState) : PanelState :=
  runEffect (settle k o st)

/-- The spec's `CacheEntry` states. -/
inductive EntryState where
  | Absent
  | Loading
  | Loaded (d : PreviewData)
  | Failed (m : String)
deriving DecidableEq

/-- The spec's `CacheStore.get`, read off the component state the way the
renderer reads it (lines 94-96): data present ↦ `Loaded`, else an error
message ↦ `Failed`, else a truthy loading flag ↦ `Loading`, else
`Absent`. -/
def entryOf (st : PanelState) (k : Nat) : EntryState :=
  match st.previews k with
  | some d => .Loaded d
  | none =>
    match st.errors k with
    | some m => .Failed m
    | none => if st.loading k then .Loading else .Absent

/-- The states the component can actually be in: from the empty mount,
any interleaving of selection changes (each runs the effect) and
settlements of issued requests. A settlement step does not force the
effect to re-run immediately, so states between a settlement and the
next render are reachable too; an effect re-run with the unchanged
selection is the `reconcile` step with `a = st.selectedFiles`. -/
inductive Reachable : PanelState → Prop
  | init : Reachable initState
  | reconcile (a : List Nat) {st : PanelState} :
      Reachable st → Reachable (setSelectedFiles a st)
  | settled (k : Nat) (o : FetchOutcome) {st : PanelState} :
      Reachable st → k ∈ st.pending → Reachable (settle k o st)

/-- A sample successful payload, used in concrete runs. -/
def dEx : PreviewData where
  headers := ["x", "y"]
  rows := [[("x", "1"), ("y", "2")]]
  total_rows := 1
  previewed_rows := 1

/-- The guard fails for `k`: some component of line 15's conjunction
blocks a fetch for `k`. -/
def blocked (st : PanelState) (k : Nat) : Prop :=
  (st.previews k).isSome = true ∨ st.loading k = true
    ∨ (st.errors k).isSome = true ∨ k ∈ st.fetchingRef

theorem blocked_iff (st : PanelState) (k : Nat) :
    blocked st k ↔ canFetch st k = false := by
  simp [blocked, canFetch, Option.isNone_iff_eq_none, Option.isSome_iff_ne_none,
    Decidable.or_iff_not_imp_left, Decidable.or_iff_not_imp_right]

theorem issueList_nil (st : PanelState) : issueList [] st = st := rfl

theorem issueList_cons (j : Nat) (t : List Nat) (st : PanelState) :
    issueList (j :: t) st = issueList t (ensure st j) := rfl

theorem ensure_selectedFiles (st : PanelState) (j : Nat) :
    (ensure st j).selectedFiles = st.selectedFiles := by
  unfold ensure; split <;> rfl

theorem ensure_previews (st : PanelState) (j : Nat) :
    (ensure st j).previews = st.previews := by
  unfold ensure; split <;> rfl

theorem ensure_errors (st : PanelState) (j : Nat) :
    (ensure st j).errors = st.errors := by
  unfold ensure; split <;> rfl

theorem issueList_selectedFiles (l : List Nat) (st : PanelState) :
    (issueList l st).selectedFiles = st.selectedFiles := by
  induction l generalizing st with
  | nil => rfl
  | cons j t ih => rw [issueList_cons, ih, ensure_selectedFiles]

theorem issueList_previews (l : List Nat) (st : PanelState) :
    (issueList l st).previews = st.previews := by
  induction l generalizing st with
  | nil => rfl
  | cons j t ih => rw [issueList_cons, ih, ensure_previews]

theorem issueList_errors (l : List Nat) (st : PanelState) :
    (issueList l st).errors = st.errors := by
  induction l generalizing st with
  | nil => rfl
  | cons j t ih => rw [issueList_cons, ih, ensure_errors]

theorem ensure_loading_mono (st : PanelState) (j k : Nat)
    (h : st.loading k = true) : (ensure st j).loading k = true := by
  unfold ensure; split
  · simp only [setKey]; split <;> simp [h]
  · exact h

theorem ensure_fetchingRef_mono (st : PanelState) (j k : Nat)
    (h : k ∈ st.fetchingRef) : k ∈ (ensure st j).fetchingRef := by
  unfold ensure; split
  · exact Finset.mem_insert_of_mem h
  · exact h

theorem ensure_blocked_mono (st : PanelState) (j k : Nat)
    (h : blocked st k) : blocked (ensure st j) k := by
  rcases h with h | h | h | h
  · exact Or.inl (by rw [ensure_previews]; exact h)
  · exact Or.inr (Or.inl (ensure_loading_mono st j k h))
  · exact Or.inr (Or.inr (Or.inl (by rw [ensure_errors]; exact h)))
  · exact Or.inr (Or.inr (Or.inr (ensure_fetchingRef_mono st j k h)))

theorem issueList_blocked_mono (l : List Nat) (st : PanelState) (k : Nat)
    (h : blocked st k) : blocked (issueList l st) k := by
  induction l generalizing st with
  | nil => exact h
  | cons j t ih => rw [issueList_cons]; exact ih _ (ensure_blocked_mono st j k h)

theorem ensure_of_blocked (st : PanelState) (k : Nat)
    (h : blocked st k) : ensure st k = st := by
  unfold ensure
  rw [(blocked_iff st k).mp h]
  rfl

theorem ensure_loading_of_ne (st : PanelState) (j k : Nat) (h : j ≠ k) :
    (ensure st j).loading k = st.loading k := by
  unfold ensure; split
  · simp only [setKey]; split
    · exact absurd (by assumption) (Ne.symm h)
    · rfl
  · rfl

theorem ensure_requestLog_of_ne (st : PanelState) (j k : Nat) (h : j ≠ k) :
    (ensure st j).requestLog.count k = st.requestLog.count k := by
  unfold ensure; split
  · simp [List.count_append, List.count_singleton, Ne.symm h]
  · rfl

theorem ensure_pending_of_ne (st : PanelState) (j k : Nat) (h : j ≠ k) :
    k ∈ (ensure st j).pending ↔ k ∈ st.pending := by
  unfold ensure; split
  · simp [List.mem_append, Ne.symm h]
  · exact Iff.rfl

theorem issueList_of_blocked (l : List Nat) (st : PanelState) (k : Nat)
    (h : blocked st k) :
    (issueList l st).loading k = st.loading k
      ∧ (issueList l st).requestLog.count k = st.requestLog.count k
      ∧ (k ∈ (issueList l st).pending ↔ k ∈ st.pending) := by
  induction l generalizing st with
  | nil => exact ⟨rfl, rfl, Iff.rfl⟩
  | cons j t ih =>
    rw [issueList_cons]
    by_cases hjk : j = k
    · subst hjk
      rw [ensure_of_blocked st j h]
      exact ih st h
    · obtain ⟨h1, h2, h3⟩ := ih (ensure st j) (ensure_blocked_mono st j k h)
      refine ⟨?_, ?_, ?_⟩
      · rw [h1, ensure_loading_of_ne st j k hjk]
      · rw [h2, ensure_requestLog_of_ne st j k hjk]
      · exact h3.trans (ensure_pending_of_ne st j k hjk)

theorem issueList_id_of_all_blocked (l : List Nat) (st : PanelState)
    (h : ∀ k ∈ l, blocked st k) : issueList l st = st := by
  induction l with
  | nil => rfl
  | cons j t ih =>
    rw [issueList_cons, ensure_of_blocked st j (h j (List.mem_cons_self j t))]
    exact ih fun k hk => h k (List.mem_cons_of_mem j hk)

theorem ensure_blocked_self (st : PanelState) (j : Nat) :
    blocked (ensure st j) j := by
  unfold ensure; split
  · exact Or.inr (Or.inl (by simp [setKey]))
  · exact (blocked_iff st j).mpr (by simpa using Bool.eq_false_iff.mpr (by assumption))

theorem issueList_blocked_of_mem (l : List Nat) (st : PanelState) (k : Nat)
    (h : k ∈ l) : blocked (issueList l st) k := by
  induction l generalizing st with
  | nil => cases h
  | cons j t ih =>
    rw [issueList_cons]
    rcases List.mem_cons.mp h with rfl | hk
    · exact issueList_blocked_mono t _ k (ensure_blocked_self st k)
    · exact ih _ hk

theorem issuePass_selectedFiles (st : PanelState) :
    (issuePass st).selectedFiles = st.selectedFiles :=
  issueList_selectedFiles _ _

theorem runEffect_selectedFiles (st : PanelState) :
    (runEffect st).selectedFiles = st.selectedFiles := by
  unfold runEffect cleanupFetchingRef prunePreviews issuePass
  exact issueList_selectedFiles _ _

theorem runEffect_errors (st : PanelState) :
    (runEffect st).errors = st.errors := by
  unfold runEffect cleanupFetchingRef prunePreviews issuePass
  exact issueList_errors _ _

theorem runEffect_loading (st : PanelState) :
    (runEffect st).loading = (issuePass st).loading := rfl

theorem runEffect_requestLog (st : PanelState) :
    (runEffect st).requestLog = (issuePass st).requestLog := rfl

theorem runEffect_pending (st : PanelState) :
    (runEffect st).pending = (issuePass st).pending := rfl

theorem runEffect_previews (st : PanelState) (k : Nat) :
    (runEffect st).previews k
      = if k ∈ st.selectedFiles then st.previews k else none := by
  unfold runEffect cleanupFetchingRef prunePreviews
  show (if k ∈ (issuePass st).selectedFiles then (issuePass st).previews k else none) = _
  rw [issuePass_selectedFiles]
  unfold issuePass
  rw [issueList_previews]

theorem runEffect_fetchingRef (st : PanelState) :
    (runEffect st).fetchingRef
      = (issuePass st).fetchingRef.filter (fun k => k ∈ st.selectedFiles) := by
  unfold runEffect cleanupFetchingRef prunePreviews
  simp only [issuePass_selectedFiles]

theorem blocked_update_selectedFiles (st : PanelState) (a : List Nat) (k : Nat)
    (h : blocked st k) : blocked { st with selectedFiles := a } k := h

theorem blocked_runEffect_of_mem (st : PanelState) (k : Nat)
    (h : k ∈ st.selectedFiles) : blocked (runEffect st) k := by
  rcases issueList_blocked_of_mem st.selectedFiles st k h with h1 | h1 | h1 | h1
  · left
    rw [runEffect_previews, if_pos h]
    rw [issueList_previews] at h1
    exact h1
  · exact Or.inr (Or.inl (by rw [runEffect_loading]; exact h1))
  · refine Or.inr (Or.inr (Or.inl ?_))
    rw [runEffect_errors]
    rw [issueList_errors] at h1
    exact h1
  · refine Or.inr (Or.inr (Or.inr ?_))
    rw [runEffect_fetchingRef]
    exact Finset.mem_filter.mpr ⟨h1, by simpa using h⟩

/-- When the guard is blocked for `k` before an effect run, the run does
not issue a fetch for `k`: `k`'s loading flag, its request count and its
pending membership are untouched. -/
theorem runEffect_of_blocked (st : PanelState) (k : Nat) (h : blocked st k) :
    (runEffect st).loading k = st.loading k
      ∧ (runEffect st).requestLog.count k = st.requestLog.count k
      ∧ (k ∈ (runEffect st).pending ↔ k ∈ st.pending) := by
  obtain ⟨h1, h2, h3⟩ := issueList_of_blocked st.selectedFiles st k h
  exact ⟨by rw [runEffect_loading]; exact h1,
    by rw [runEffect_requestLog]; exact h2,
    by rw [runEffect_pending]; exact h3⟩

theorem canFetch_spec (st : PanelState) (k : Nat) (h : canFetch st k = true) :
    st.previews k = none ∧ st.loading k = false ∧ st.errors k = none
      ∧ k ∉ st.fetchingRef := by
  simp only [canFetch, Bool.and_eq_true, Bool.not_eq_true', decide_eq_false_iff_not,
    Option.isNone_iff_eq_none] at h
  exact ⟨h.1.1.1, h.1.1.2, h.1.2, h.2⟩

theorem entryOf_ext (s t : PanelState) (k : Nat)
    (hp : s.previews k = t.previews k) (he : s.errors k = t.errors k)
    (hl : s.loading k = t.loading k) : entryOf s k = entryOf t k := by
  unfold entryOf
  rw [hp, he, hl]

theorem entryOf_eq_loaded_iff (st : PanelState) (k : Nat) (d : PreviewData) :
    entryOf st k = .Loaded d ↔ st.previews k = some d := by
  unfold entryOf
  cases hp : st.previews k with
  | some d' => simp
  | none =>
    cases he : st.errors k with
    | some m => simp
    | none => by_cases hl : st.loading k = true <;> simp [hl]

theorem entryOf_eq_failed_iff (st : PanelState) (k : Nat) (m : String) :
    entryOf st k = .Failed m ↔ st.previews k = none ∧ st.errors k = some m := by
  unfold entryOf
  cases hp : st.previews k with
  | some d' => simp
  | none =>
    cases he : st.errors k with
    | some m' => simp
    | none => by_cases hl : st.loading k = true <;> simp [hl]

theorem prunePreviews_eq_self (st : PanelState)
    (h : ∀ k, (if k ∈ st.selectedFiles then st.previews k else none) = st.previews k) :
    prunePreviews st = st := by
  unfold prunePreviews
  rw [funext h]

theorem cleanupFetchingRef_eq_self (st : PanelState)
    (h : st.fetchingRef.filter (fun k => k ∈ st.selectedFiles) = st.fetchingRef) :
    cleanupFetchingRef st = st := by
  unfold cleanupFetchingRef
  rw [h]

/-- Running the effect twice in a row with the same selection is the same
as running it once: the second run finds every selected key blocked,
keeps every kept preview, and keeps every kept `fetchingRef` member. -/
theorem runEffect_runEffect (st : PanelState) :
    runEffect (runEffect st) = runEffect st := by
  have hsel : (runEffect st).selectedFiles = st.selectedFiles :=
    runEffect_selectedFiles st
  have hb : ∀ k ∈ (runEffect st).selectedFiles, blocked (runEffect st) k := by
    intro k hk
    rw [hsel] at hk
    exact blocked_runEffect_of_mem st k hk
  have hissue : issuePass (runEffect st) = runEffect st :=
    issueList_id_of_all_blocked _ _ hb
  show cleanupFetchingRef (prunePreviews (issuePass (runEffect st))) = runEffect st
  rw [hissue]
  rw [prunePreviews_eq_self (runEffect st) ?hp]
  case hp =>
    intro k
    by_cases hk : k ∈ (runEffect st).selectedFiles
    · rw [if_pos hk]
    · rw [if_neg hk]
      rw [hsel] at hk
      rw [runEffect_previews, if_neg hk]
  rw [cleanupFetchingRef_eq_self (runEffect st) ?hf]
  case hf =>
    refine Finset.filter_eq_self.mpr ?_
    intro x hx
    rw [runEffect_fetchingRef] at hx
    have := (Finset.mem_filter.mp hx).2
    simp only [hsel, decide_eq_true_eq]
    simpa using this

theorem update_selectedFiles_self (st : PanelState) (a : List Nat)
    (h : st.selectedFiles = a) : ({ st with selectedFiles := a } : PanelState) = st := by
  rw [← h]

/-- A second reconciliation with an unchanged selection changes nothing
at all (full state equality, ghost fields included). -/
theorem setSelectedFiles_idem (a : List Nat) (st : PanelState) :
    setSelectedFiles a (setSelectedFiles a st) = setSelectedFiles a st := by
  unfold setSelectedFiles
  rw [update_selectedFiles_self _ a (runEffect_selectedFiles _)]
  exact runEffect_runEffect _

/-- A recorded error is never cleared by reconciliation, and while it is
present no fetch for its key is ever issued by reconciliation. -/
theorem reconcile_keeps_error (st : PanelState) (a : List Nat) (k : Nat) (m : String)
    (h : st.errors k = some m) :
    (setSelectedFiles a st).errors k = some m
      ∧ (setSelectedFiles a st).requestLog.count k = st.requestLog.count k
      ∧ (setSelectedFiles a st).previews k = (if k ∈ a then st.previews k else none) := by
  have hb : blocked ({ st with selectedFiles := a } : PanelState) k :=
    Or.inr (Or.inr (Or.inl (by simp [h])))
  refine ⟨?_, ?_, ?_⟩
  · rw [show (setSelectedFiles a st).errors = st.errors from runEffect_errors _]
    exact h
  · exact (runEffect_of_blocked _ k hb).2.1
  · exact runEffect_previews _ k

/-- A settling success for a still-selected key ends up `Loaded` with
exactly its payload, even after the effect re-runs. -/
theorem completeOk_applied (st : PanelState) (k : Nat) (d : PreviewData)
    (hsel : k ∈ st.selectedFiles) :
    entryOf (completeFetch k (.ok d) st) k = .Loaded d := by
  rw [entryOf_eq_loaded_iff]
  show (runEffect (applyOk k d st)).previews k = some d
  rw [runEffect_previews]
  have : (applyOk k d st).previews k = some d := by simp [applyOk, setKey]
  rw [this]
  exact if_pos hsel

/-- The operational invariant of reachable states: pending requests are
pairwise-distinct keys; an outstanding key has its `loading` flag set and
neither data nor error recorded; and no key ever has data and an error at
the same time. -/
def StateInv (st : PanelState) : Prop :=
  st.pending.Nodup
    ∧ (∀ k ∈ st.pending,
        st.loading k = true ∧ st.previews k = none ∧ st.errors k = none)
    ∧ ∀ k, ¬((st.previews k).isSome = true ∧ (st.errors k).isSome = true)

theorem stateInv_initState : StateInv initState := by
  refine ⟨List.nodup_nil, ?_, ?_⟩ <;> simp [initState]

theorem stateInv_ensure (st : PanelState) (j : Nat) (h : StateInv st) : StateInv (ensure st j) := by
  obtain ⟨hnd, hpend, hmut⟩ := h
  unfold ensure
  split
  case isTrue hc =>
    obtain ⟨hpj, hlj, hej, _⟩ := canFetch_spec st j hc
    have hj : j ∉ st.pending := fun hmem => by
      have := (hpend j hmem).1
      rw [hlj] at this
      cases this
    refine ⟨?_, ?_, hmut⟩
    · simpa [List.nodup_append] using ⟨hnd, hj⟩
    · intro k hk
      rcases List.mem_append.mp hk with hk | hk
      · have hkj : k ≠ j := fun h' => hj (h' ▸ hk)
        obtain ⟨h1, h2, h3⟩ := hpend k hk
        exact ⟨by simp [setKey, hkj, h1], h2, h3⟩
      · have hkj : k = j := by simpa using hk
        subst hkj
        exact ⟨by simp [setKey], hpj, hej⟩
  case isFalse => exact ⟨hnd, hpend, hmut⟩

theorem stateInv_issueList (l : List Nat) (st : PanelState) (h : StateInv st) :
    StateInv (issueList l st) := by
  induction l generalizing st with
  | nil => exact h
  | cons j t ih => rw [issueList_cons]; exact ih _ (stateInv_ensure st j h)

theorem stateInv_prunePreviews (st : PanelState) (h : StateInv st) : StateInv (prunePreviews st) := by
  obtain ⟨hnd, hpend, hmut⟩ := h
  refine ⟨hnd, ?_, ?_⟩
  · intro k hk
    obtain ⟨h1, h2, h3⟩ := hpend k hk
    refine ⟨h1, ?_, h3⟩
    show (if k ∈ st.selectedFiles then st.previews k else none) = none
    rw [h2]
    split <;> rfl
  · intro k ⟨hp, he⟩
    refine hmut k ⟨?_, he⟩
    revert hp
    show (if k ∈ st.selectedFiles then st.previews k else none).isSome = true → _
    split
    · exact id
    · intro h'; cases h'

theorem stateInv_runEffect (st : PanelState) (h : StateInv st) : StateInv (runEffect st) :=
  stateInv_prunePreviews _ (stateInv_issueList _ _ h)

theorem stateInv_settle (st : PanelState) (k : Nat) (o : FetchOutcome)
    (hk : k ∈ st.pending) (h : StateInv st) : StateInv (settle k o st) := by
  obtain ⟨hnd, hpend, hmut⟩ := h
  obtain ⟨hlk, hpk, hek⟩ := hpend k hk
  have hmem : ∀ j, j ∈ st.pending.erase k → j ≠ k ∧ j ∈ st.pending := by
    intro j hj
    exact (List.Nodup.mem_erase_iff hnd).mp hj
  cases o with
  | ok d =>
    refine ⟨hnd.erase k, ?_, ?_⟩
    · intro j hj
      obtain ⟨hjk, hjp⟩ := hmem j hj
      obtain ⟨h1, h2, h3⟩ := hpend j hjp
      exact ⟨by simp [settle, applyOk, setKey, hjk, h1],
        by simp [settle, applyOk, setKey, hjk, h2],
        by simp [settle, applyOk, setKey, hjk, h3]⟩
    · intro j ⟨hp, he⟩
      by_cases hjk : j = k
      · subst hjk
        simp [settle, applyOk, setKey] at he
      · simp [settle, applyOk, setKey, hjk] at hp he
        exact hmut j ⟨hp, he⟩
  | httpError =>
    refine ⟨hnd.erase k, ?_, ?_⟩
    · intro j hj
      obtain ⟨hjk, hjp⟩ := hmem j hj
      obtain ⟨h1, h2, h3⟩ := hpend j hjp
      exact ⟨by simp [settle, applyErr, setKey, hjk, h1],
        by simp [settle, applyErr, setKey, hjk, h2],
        by simp [settle, applyErr, setKey, hjk, h3]⟩
    · intro j ⟨hp, he⟩
      by_cases hjk : j = k
      · subst hjk
        simp [settle, applyErr] at hp
        rw [hpk] at hp
        cases hp
      · simp [settle, applyErr, setKey, hjk] at hp he
        exact hmut j ⟨hp, he⟩
  | transportError m =>
    refine ⟨hnd.erase k, ?_, ?_⟩
    · intro j hj
      obtain ⟨hjk, hjp⟩ := hmem j hj
      obtain ⟨h1, h2, h3⟩ := hpend j hjp
      exact ⟨by simp [settle, applyErr, setKey, hjk, h1],
        by simp [settle, applyErr, setKey, hjk, h2],
        by simp [settle, applyErr, setKey, hjk, h3]⟩
    · intro j ⟨hp, he⟩
      by_cases hjk : j = k
      · subst hjk
        simp [settle, applyErr] at hp
        rw [hpk] at hp
        cases hp
      · simp [settle, applyErr, setKey, hjk] at hp he
        exact hmut j ⟨hp, he⟩

theorem stateInv_reachable (st : PanelState) (h : Reachable st) : StateInv st := by
  induction h with
  | init => exact stateInv_initState
  | reconcile a h ih => exact stateInv_runEffect _ ih
  | settled k o h hk ih => exact stateInv_settle _ k o hk ih

/-- `ensure` invoked `N` times in a row on the same key, as
`FetchCoordinator.ensure(k)` called `N` times. -/
def ensureIter (k : Nat) (N : Nat) (st : PanelState) : PanelState :=
  (fun s => ensure s k)^[N] st

theorem ensureIter_fixed (k : Nat) (N : Nat) (st : PanelState)
    (h : st.loading k = true) : ensureIter k N st = st := by
  induction N with
  | zero => rfl
  | succ n ih =>
    unfold ensureIter
    rw [Function.iterate_succ_apply]
    rw [ensure_of_blocked st k (Or.inr (Or.inl h))]
    exact ih

/-- Scenario 1 of the spec, as a sanity check: selecting `A` from the
empty state issues one fetch and moves `A` to `Loading`. -/
theorem scenario_one :
    (setSelectedFiles [1] initState).requestLog = [1]
      ∧ entryOf (setSelectedFiles [1] initState) 1 = .Loading := by
  decide

/-! ## Scenario runs used by concrete counterexamples and witnesses -/

/-- Select file 1, deselect it, reselect it, all before its fetch
resolves (§8 Scenario 2 of the spec). -/
def toggleRun : PanelState :=
  setSelectedFiles [1] (setSelectedFiles [] (setSelectedFiles [1] initState))

/-- Select file 2 (a fetch is issued). -/
def failRun1 : PanelState := setSelectedFiles [2] initState

/-- The fetch for file 2 fails with a transport error. -/
def failRun2 : PanelState := settle 2 (.transportError "network error") failRun1

/-- File 2 is then deselected. -/
def failRun3 : PanelState := setSelectedFiles [] failRun2

/-- File 2 is reselected. -/
def failRun4 : PanelState := setSelectedFiles [2] failRun3

/-- A reconciled state in which file 1 is selected and `Loaded`. -/
def loadedRun : PanelState :=
  completeFetch 1 (.ok dEx) (setSelectedFiles [1] initState)

/-! ## C1 — late-arrival safety (corrected) -/

/-- C1, counterexample: select file 1, deselect it (its fetch is still
outstanding: it is no longer in `fetchingRef` but still pending), then
let the fetch succeed. The state is reachable, and the success handler
applies the result even though 1 is not registered as in-flight, so the
entry is `Loaded`, not `Absent` as the claim states. -/
theorem late_arrival_unchecked_cex :
    Reachable (settle 1 (.ok dEx) (setSelectedFiles [] (setSelectedFiles [1] initState)))
      ∧ 1 ∉ (setSelectedFiles [] (setSelectedFiles [1] initState)).fetchingRef
      ∧ entryOf (settle 1 (.ok dEx)
          (setSelectedFiles [] (setSelectedFiles [1] initState))) 1 = .Loaded dEx := by
  refine ⟨?_, by decide, by decide⟩
  exact Reachable.settled 1 (.ok dEx)
    (Reachable.reconcile [] (Reachable.reconcile [1] Reachable.init)) (by decide)

/-- C1 as amended: the success handler applies a late-arriving result
unconditionally (there is no in-flight check at completion time), so the
entry for the evicted key is momentarily `Loaded`; the effect re-run
triggered by that state update then prunes it, so after reconciliation
the entry for the evicted key is `Absent` again. -/
theorem late_arrival_after_rerun (st : PanelState) (k : Nat) (d : PreviewData)
    (h : k ∉ st.selectedFiles) :
    (settle k (.ok d) st).previews k = some d
      ∧ entryOf (completeFetch k (.ok d) st) k = .Absent := by
  constructor
  · simp [settle, applyOk, setKey]
  · have hp : (completeFetch k (.ok d) st).previews k = none := by
      show (runEffect (applyOk k d st)).previews k = none
      rw [runEffect_previews]
      exact if_neg h
    have he : (completeFetch k (.ok d) st).errors k = none := by
      show (runEffect (applyOk k d st)).errors k = none
      rw [runEffect_errors]
      simp [applyOk, setKey]
    have hl : (completeFetch k (.ok d) st).loading k = false := by
      have hb : blocked (applyOk k d st) k :=
        Or.inl (by simp [applyOk, setKey])
      show (runEffect (applyOk k d st)).loading k = false
      rw [(runEffect_of_blocked _ k hb).1]
      simp [applyOk, setKey]
    unfold entryOf
    rw [hp, he, hl]
    rfl

/-- C1 witness for `late_arrival_after_rerun` at key 5, never selected. -/
theorem late_arrival_after_rerun_witness :
    (5 ∉ initState.selectedFiles)
      ∧ ((settle 5 (.ok dEx) initState).previews 5 = some dEx
          ∧ entryOf (completeFetch 5 (.ok dEx) initState) 5 = .Absent) :=
  ⟨by decide, late_arrival_after_rerun initState 5 dEx (by decide)⟩

/-! ## C2 — rapid toggle convergence (corrected) -/

/-- C2, counterexample: with `{A} → {} → {A}` before the fetch for `A`
resolves, only ONE request is ever issued (the claim demands a second
fetch): the `loading` flag for 1 survives the eviction and blocks the
guard on reselection. -/
theorem rapid_toggle_single_fetch_cex :
    toggleRun.requestLog = [1] ∧ toggleRun.loading 1 = true
      ∧ toggleRun.pending = [1] := by
  decide

/-- C2 as amended: after `{A} → {} → {A}` before the original fetch
resolves, no second fetch is issued (one request total), and when the
original response arrives it is applied — `A` ends `Loaded` with the
original fetch's payload, which is the only response there is. -/
theorem rapid_toggle_original_applied (d : PreviewData) :
    toggleRun.requestLog = [1]
      ∧ entryOf (completeFetch 1 (.ok d) toggleRun) 1 = .Loaded d := by
  refine ⟨by decide, ?_⟩
  exact completeOk_applied toggleRun 1 d (by decide)

/-! ## C3 — eviction correctness (corrected) -/

/-- C3, counterexample: a reachable run (select 2, its fetch fails,
deselect 2) after whose final reconciliation key 2 still holds a
materialized `Failed` entry although the active set is empty — the
cache's keys are not a subset of the active set. -/
theorem eviction_failed_survives_cex :
    Reachable failRun3
      ∧ entryOf failRun3 2 = .Failed "network error"
      ∧ 2 ∉ failRun3.selectedFiles := by
  refine ⟨?_, by decide, by decide⟩
  exact Reachable.reconcile []
    (Reachable.settled 2 (.transportError "network error")
      (Reachable.reconcile [2] Reachable.init) (by decide))

/-- C3 as amended: reconciliation evicts only `Loaded` entries (and
prunes `fetchingRef`): after any reconciliation a deselected key holds
no preview data and is not in `fetchingRef`; `Failed` and `Loading`
entries may survive for deselected keys. -/
theorem loaded_pruned_on_deselect (st : PanelState) (a : List Nat) (k : Nat)
    (hk : k ∉ a) :
    (setSelectedFiles a st).previews k = none
      ∧ k ∉ (setSelectedFiles a st).fetchingRef := by
  constructor
  · rw [show (setSelectedFiles a st).previews k
        = if k ∈ a then ({ st with selectedFiles := a} : PanelState).previews k else none
      from runEffect_previews _ k]
    exact if_neg hk
  · intro hmem
    rw [show setSelectedFiles a st = runEffect { st with selectedFiles := a } from rfl,
      runEffect_fetchingRef] at hmem
    exact hk (by simpa using (Finset.mem_filter.mp hmem).2)

/-- C3 witness for `loaded_pruned_on_deselect` at key 7 and an empty
selection. -/
theorem loaded_pruned_on_deselect_witness :
    (7 ∉ ([] : List Nat))
      ∧ ((setSelectedFiles [] initState).previews 7 = none
          ∧ 7 ∉ (setSelectedFiles [] initState).fetchingRef) :=
  ⟨by decide, loaded_pruned_on_deselect initState [] 7 (by decide)⟩

/-! ## C4 — retry via eviction (corrected) -/

/-- C4, counterexample: after the fetch for key 2 fails and 2 is
deselected, its entry does NOT re-enter `Absent` (the error entry is
never pruned), and reselecting 2 issues no new fetch — the request log
still holds exactly the original single request. -/
theorem failed_retry_blocked_cex :
    entryOf failRun3 2 ≠ .Absent
      ∧ failRun4.requestLog = [2]
      ∧ entryOf failRun4 2 = .Failed "network error" := by
  decide

/-- C4 as amended: a `Failed` entry is sticky — deselecting its key does
not evict it, and a later reconciliation with the key active again still
finds the recorded error, which blocks the fetch guard, so no new fetch
for the key is ever issued by reconciliation. -/
theorem failed_entry_sticky (st : PanelState) (a1 a2 : List Nat) (k : Nat)
    (m : String) (hf : entryOf st k = .Failed m) (h1 : k ∉ a1) (h2 : k ∈ a2) :
    entryOf (setSelectedFiles a1 st) k = .Failed m
      ∧ entryOf (setSelectedFiles a2 (setSelectedFiles a1 st)) k = .Failed m
      ∧ (setSelectedFiles a2 (setSelectedFiles a1 st)).requestLog.count k
          = st.requestLog.count k := by
  obtain ⟨hp, he⟩ := (entryOf_eq_failed_iff st k m).mp hf
  obtain ⟨he1, hc1, hp1⟩ := reconcile_keeps_error st a1 k m he
  have hp1' : (setSelectedFiles a1 st).previews k = none := by
    rw [hp1, hp]
    split <;> rfl
  obtain ⟨he2, hc2, hp2⟩ := reconcile_keeps_error (setSelectedFiles a1 st) a2 k m he1
  have hp2' : (setSelectedFiles a2 (setSelectedFiles a1 st)).previews k = none := by
    rw [hp2, hp1']
    split <;> rfl
  exact ⟨(entryOf_eq_failed_iff _ k m).mpr ⟨hp1', he1⟩,
    (entryOf_eq_failed_iff _ k m).mpr ⟨hp2', he2⟩,
    hc2.trans hc1⟩

/-- C4 witness for `failed_entry_sticky` on the failed-fetch run. -/
theorem failed_entry_sticky_witness :
    (entryOf failRun2 2 = .Failed "network error"
        ∧ 2 ∉ ([] : List Nat) ∧ 2 ∈ [2])
      ∧ (entryOf (setSelectedFiles [] failRun2) 2 = .Failed "network error"
          ∧ entryOf (setSelectedFiles [2] (setSelectedFiles [] failRun2)) 2
              = .Failed "network error"
          ∧ (setSelectedFiles [2] (setSelectedFiles [] failRun2)).requestLog.count 2
              = failRun2.requestLog.count 2) :=
  ⟨⟨by decide, by decide, by decide⟩,
    failed_entry_sticky failRun2 [] [2] 2 "network error" (by decide) (by decide) (by decide)⟩

/-! ## C5 — fetch deduplication (confirmed) -/

/-- C5: invoking `ensure(k)` `N + 1` times from a fetchable state issues
exactly one request for `k` (the first call flips `loading[k]` and adds
`k` to `fetchingRef`, which blocks every later call while the fetch is
outstanding), leaving `k` in `Loading`; and in every reachable state the
outstanding requests carry pairwise-distinct keys — at most one request
per key is outstanding at any time. -/
theorem fetch_dedup (st : PanelState) (k N : Nat) (st2 : PanelState)
    (hc : canFetch st k = true) (h2 : Reachable st2) :
    (ensureIter k (N + 1) st).requestLog.count k = st.requestLog.count k + 1
      ∧ entryOf (ensureIter k (N + 1) st) k = .Loading
      ∧ st2.pending.Nodup := by
  obtain ⟨hp, hl, he, _⟩ := canFetch_spec st k hc
  have hl1 : (ensure st k).loading k = true := by
    unfold ensure
    rw [if_pos hc]
    simp [setKey]
  have hiter : ensureIter k (N + 1) st = ensure st k := by
    unfold ensureIter
    rw [Function.iterate_succ_apply]
    exact ensureIter_fixed k N (ensure st k) hl1
  rw [hiter]
  refine ⟨?_, ?_, (stateInv_reachable st2 h2).1⟩
  · have : (ensure st k).requestLog = st.requestLog ++ [k] := by
      unfold ensure
      rw [if_pos hc]
    rw [this]
    simp
  · unfold entryOf
    rw [show (ensure st k).previews = st.previews from ensure_previews st k, hp,
      show (ensure st k).errors = st.errors from ensure_errors st k, he, hl1]
    rfl

/-- C5 witness for `fetch_dedup`: four calls on key 0 from the empty
state issue exactly one request. -/
theorem fetch_dedup_witness :
    (canFetch initState 0 = true)
      ∧ ((ensureIter 0 4 initState).requestLog.count 0
            = initState.requestLog.count 0 + 1
          ∧ entryOf (ensureIter 0 4 initState) 0 = .Loading
          ∧ initState.pending.Nodup) :=
  ⟨by decide, fetch_dedup initState 0 3 initState (by decide) Reachable.init⟩

/-! ## C6 — no-revert (confirmed) -/

/-- C6: once a key is `Loaded` or `Failed`, a reconciliation with the key
still active leaves its entry state unchanged and issues no further fetch
for it: the materialized entry blocks the fetch guard and the prune pass
keeps entries of active keys. -/
theorem no_revert_when_active (st : PanelState) (a : List Nat) (k : Nat)
    (hterm : (∃ d, entryOf st k = .Loaded d) ∨ ∃ m, entryOf st k = .Failed m)
    (ha : k ∈ a) :
    entryOf (setSelectedFiles a st) k = entryOf st k
      ∧ (setSelectedFiles a st).requestLog.count k = st.requestLog.count k := by
  have hb : blocked ({ st with selectedFiles := a } : PanelState) k := by
    rcases hterm with ⟨d, hd⟩ | ⟨m, hm⟩
    · exact Or.inl (by rw [show ({ st with selectedFiles := a } : PanelState).previews
          = st.previews from rfl, (entryOf_eq_loaded_iff st k d).mp hd]; rfl)
    · exact Or.inr (Or.inr (Or.inl (by rw [show ({ st with selectedFiles := a }
          : PanelState).errors = st.errors from rfl,
          ((entryOf_eq_failed_iff st k m).mp hm).2]; rfl)))
  have hp : (setSelectedFiles a st).previews k = st.previews k := by
    rw [show (setSelectedFiles a st).previews k
        = if k ∈ a then ({ st with selectedFiles := a } : PanelState).previews k else none
      from runEffect_previews _ k]
    exact if_pos ha
  have he : (setSelectedFiles a st).errors k = st.errors k := by
    rw [show (setSelectedFiles a st).errors = st.errors from runEffect_errors _]
  have hl : (setSelectedFiles a st).loading k = st.loading k :=
    (runEffect_of_blocked _ k hb).1
  exact ⟨entryOf_ext _ st k hp he hl, (runEffect_of_blocked _ k hb).2.1⟩

/-- C6 witness for `no_revert_when_active` on a `Loaded` run. -/
theorem no_revert_when_active_witness :
    ((entryOf loadedRun 1 = .Loaded dEx) ∧ 1 ∈ [1])
      ∧ (entryOf (setSelectedFiles [1] loadedRun) 1 = entryOf loadedRun 1
          ∧ (setSelectedFiles [1] loadedRun).requestLog.count 1
              = loadedRun.requestLog.count 1) :=
  ⟨⟨by decide, by decide⟩,
    no_revert_when_active loadedRun [1] 1 (Or.inl ⟨dEx, by decide⟩) (by decide)⟩

/-! ## C7 — idempotent reconciliation (confirmed) -/

/-- C7: reconciling a second time with the same selection issues no
additional fetches (the request log and the pending list do not change)
and changes no entry's state. This follows from the second run being the
identity on the whole state. -/
theorem reconcile_idempotent (st : PanelState) (a : List Nat) :
    (setSelectedFiles a (setSelectedFiles a st)).requestLog
        = (setSelectedFiles a st).requestLog
      ∧ (setSelectedFiles a (setSelectedFiles a st)).pending
          = (setSelectedFiles a st).pending
      ∧ ∀ k, entryOf (setSelectedFiles a (setSelectedFiles a st)) k
          = entryOf (setSelectedFiles a st) k := by
  rw [setSelectedFiles_idem]
  exact ⟨rfl, rfl, fun _ => rfl⟩

/-! ## C8 — failure recording (confirmed) -/

/-- C8: when the fetch for a still-selected key fails — non-success HTTP
status (recorded as `"Failed to load preview"`) or transport error with
its own message — the key's entry becomes `Failed` with that message,
and a later reconciliation with the key still active keeps the entry
`Failed` and issues no new fetch for it. -/
theorem failure_recorded (st : PanelState) (k : Nat) (o : FetchOutcome)
    (m : String) (a : List Nat) (ho : failureMessage o = some m)
    (hsel : k ∈ st.selectedFiles) (hp : st.previews k = none) (ha : k ∈ a) :
    entryOf (completeFetch k o st) k = .Failed m
      ∧ entryOf (setSelectedFiles a (completeFetch k o st)) k = .Failed m
      ∧ (setSelectedFiles a (completeFetch k o st)).requestLog.count k
          = (completeFetch k o st).requestLog.count k := by
  have hsettle : settle k o st = applyErr k m st := by
    cases o with
    | ok d => cases ho
    | httpError =>
      unfold failureMessage at ho
      rw [settle, Option.some_inj.mp ho]
    | transportError m' =>
      unfold failureMessage at ho
      rw [settle, Option.some_inj.mp ho]
  have hce : completeFetch k o st = runEffect (applyErr k m st) := by
    rw [completeFetch, hsettle]
  have he1 : (runEffect (applyErr k m st)).errors k = some m := by
    rw [runEffect_errors]
    simp [applyErr, setKey]
  have hp1 : (runEffect (applyErr k m st)).previews k = none := by
    rw [runEffect_previews]
    split
    · exact hp
    · rfl
  obtain ⟨he2, hc2, hp2⟩ :=
    reconcile_keeps_error (runEffect (applyErr k m st)) a k m he1
  refine ⟨?_, ?_, ?_⟩
  · rw [hce]
    exact (entryOf_eq_failed_iff _ k m).mpr ⟨hp1, he1⟩
  · rw [hce]
    refine (entryOf_eq_failed_iff _ k m).mpr ⟨?_, he2⟩
    rw [hp2, hp1]
    split <;> rfl
  · rw [hce]
    exact hc2

/-- C8 witness for `failure_recorded`: key 2 selected, its fetch fails
with the transport message `"network error"`. -/
theorem failure_recorded_witness :
    (failureMessage (.transportError "network error") = some "network error"
        ∧ 2 ∈ failRun1.selectedFiles ∧ failRun1.previews 2 = none ∧ 2 ∈ [2])
      ∧ (entryOf (completeFetch 2 (.transportError "network error") failRun1) 2
            = .Failed "network error"
          ∧ entryOf (setSelectedFiles [2]
              (completeFetch 2 (.transportError "network error") failRun1)) 2
                = .Failed "network error"
          ∧ (setSelectedFiles [2]
              (completeFetch 2 (.transportError "network error") failRun1)).requestLog.count 2
                = (completeFetch 2 (.transportError "network error") failRun1).requestLog.count 2) :=
  ⟨⟨by decide, by decide, by decide, by decide⟩,
    failure_recorded failRun1 2 (.transportError "network error") "network error" [2]
      (by decide) (by decide) (by decide) (by decide)⟩

/-! ## C9 — failure isolation (confirmed) -/

/-- C9: a fetch failure for one key leaves every other key's entry —
state and stored data — unchanged: the catch and `finally` handlers
touch only their own key's slots. -/
theorem failure_isolation (st : PanelState) (k1 k2 : Nat) (m : String)
    (h : k1 ≠ k2) : entryOf (applyErr k1 m st) k2 = entryOf st k2 := by
  refine entryOf_ext _ st k2 rfl ?_ ?_
  · show setKey st.errors k1 (some m) k2 = st.errors k2
    simp [setKey, Ne.symm h]
  · show setKey st.loading k1 false k2 = st.loading k2
    simp [setKey, Ne.symm h]

/-- C9 witness for `failure_isolation` at keys 1 ≠ 2. -/
theorem failure_isolation_witness :
    ((1 : Nat) ≠ 2)
      ∧ entryOf (applyErr 1 "boom" loadedRun) 2 = entryOf loadedRun 2 :=
  ⟨by decide, failure_isolation loadedRun 1 2 "boom" (by decide)⟩

/-! ## C10 — Loaded/Failed mutual exclusion (confirmed) -/

/-- C10: in every reachable state no key simultaneously holds preview
data and an error entry; and the success handler stores the payload and
deletes any existing error entry for its key in the same completion. -/
theorem loaded_failed_exclusive (st : PanelState) (h : Reachable st)
    (k : Nat) (d : PreviewData) :
    ¬((st.previews k).isSome = true ∧ (st.errors k).isSome = true)
      ∧ (applyOk k d st).previews k = some d
      ∧ (applyOk k d st).errors k = none :=
  ⟨(stateInv_reachable st h).2.2 k,
    by simp [applyOk, setKey],
    by simp [applyOk, setKey]⟩

/-- C10 witness for `loaded_failed_exclusive` at the mounted state. -/
theorem loaded_failed_exclusive_witness :
    ¬((initState.previews 0).isSome = true ∧ (initState.errors 0).isSome = true)
      ∧ (applyOk 0 dEx initState).previews 0 = some dEx
      ∧ (applyOk 0 dEx initState).errors 0 = none :=
  loaded_failed_exclusive initState Reachable.init 0 dEx
